import Mathlib

/-!
Shallow embedding of the Agent Memory System core (src/issue.py,
src/storage.py, src/cli.py) and proofs of the frozen claims about it.

Modelling conventions:
* Python `datetime` values (always timezone-aware UTC in this program) are
  the `DateTime` structure below; `datetime.isoformat` / `fromisoformat`
  are modelled character-for-character on the fixed-width ISO-8601 layout
  the program reads and writes.
* A JSON dictionary produced by `Issue.to_dict` / consumed by
  `Issue.from_dict` is the `IssueRecord` structure: every key may be
  absent (`Option`), mirroring dictionary access with `[]` vs `.get`.
* The issues.jsonl file is a `List Line`: each physical line is either
  blank after stripping, text that `json.loads` rejects (`badJson`, with
  the decoder's message), or a decoded record (`json`).
* Python exceptions are `Except` results; `SystemExit` paths of the CLI
  are `CliError` values.
-/

/-- Issue status values (src/issue.py, `class Status(Enum)`). -/
inductive Status where
  | OPEN
  | IN_PROGRESS
  | DONE
deriving DecidableEq, Repr

/-- The string payload of each `Status` member (`status.value`). -/
def Status.value : Status → String
  | .OPEN => "open"
  | .IN_PROGRESS => "in-progress"
  | .DONE => "done"

/-- Python `Status(tag)`: the member whose value is `tag`, or a
`ValueError` (here `none`) for an unrecognized tag. -/
def Status.fromValue (s : String) : Option Status :=
  if s = "open" then some .OPEN
  else if s = "in-progress" then some .IN_PROGRESS
  else if s = "done" then some .DONE
  else none

/-- A timezone-aware UTC timestamp: the fields of a Python `datetime`
with `tzinfo=timezone.utc` (the only timezone this program produces). -/
structure DateTime where
  year : Nat
  month : Nat
  day : Nat
  hour : Nat
  minute : Nat
  second : Nat
  microsecond : Nat
deriving DecidableEq, Repr

/-- The field ranges Python's `datetime` constructor enforces, so every
`datetime` object satisfies them (day bound relaxed to 31). -/
def DateTime.Valid (d : DateTime) : Prop :=
  1 ≤ d.year ∧ d.year ≤ 9999 ∧ 1 ≤ d.month ∧ d.month ≤ 12 ∧
  1 ≤ d.day ∧ d.day ≤ 31 ∧ d.hour ≤ 23 ∧ d.minute ≤ 59 ∧
  d.second ≤ 59 ∧ d.microsecond ≤ 999999

instance (d : DateTime) : Decidable d.Valid := by
  unfold DateTime.Valid; exact inferInstance

/-- Two decimal digits, zero-padded (`%02d` for values below 100). -/
def pad2 (n : Nat) : List Char :=
  [Nat.digitChar (n / 10), Nat.digitChar (n % 10)]

/-- Four decimal digits, zero-padded (`%04d` for values below 10000). -/
def pad4 (n : Nat) : List Char :=
  [Nat.digitChar (n / 1000), Nat.digitChar (n / 100 % 10),
   Nat.digitChar (n / 10 % 10), Nat.digitChar (n % 10)]

/-- Six decimal digits, zero-padded (`%06d` for values below 1000000). -/
def pad6 (n : Nat) : List Char :=
  [Nat.digitChar (n / 100000), Nat.digitChar (n / 10000 % 10),
   Nat.digitChar (n / 1000 % 10), Nat.digitChar (n / 100 % 10),
   Nat.digitChar (n / 10 % 10), Nat.digitChar (n % 10)]

/-- Model of `datetime.isoformat()` for a UTC datetime:
`YYYY-MM-DDTHH:MM:SS[.ffffff]+00:00`, the fractional part present
exactly when `microsecond` is nonzero. -/
def DateTime.isoformat (d : DateTime) : String :=
  ⟨pad4 d.year ++ '-' :: pad2 d.month ++ '-' :: pad2 d.day ++
   'T' :: pad2 d.hour ++ ':' :: pad2 d.minute ++ ':' :: pad2 d.second ++
   (if d.microsecond = 0 then [] else '.' :: pad6 d.microsecond) ++
   ['+', '0', '0', ':', '0', '0']⟩

/-- The numeric value of one ASCII digit, `none` for any other char. -/
def digitVal (c : Char) : Option Nat :=
  if '0' ≤ c ∧ c ≤ '9' then some (c.toNat - 48) else none

/-- Two digit characters as a number below 100. -/
def digits2 (a b : Char) : Option Nat := do
  let x ← digitVal a
  let y ← digitVal b
  pure (10 * x + y)

/-- Four digit characters as a number below 10000. -/
def digits4 (a b c d : Char) : Option Nat := do
  let x ← digits2 a b
  let y ← digits2 c d
  pure (100 * x + y)

/-- Six digit characters as a number below 1000000. -/
def digits6 (a b c d e f : Char) : Option Nat := do
  let x ← digits4 a b c d
  let y ← digits2 e f
  pure (100 * x + y)

/-- The tail of an ISO string after the seconds field: either the bare
UTC offset, or a six-digit fraction followed by the offset; yields the
microsecond count. -/
def parseOffsetTail : List Char → Option Nat
  | ['+', '0', '0', ':', '0', '0'] => some 0
  | '.' :: u1 :: u2 :: u3 :: u4 :: u5 :: u6 ::
      '+' :: '0' :: '0' :: ':' :: '0' :: '0' :: [] =>
    digits6 u1 u2 u3 u4 u5 u6
  | _ => none

/-- Parse the fixed-width ISO-8601 UTC layout written by
`DateTime.isoformat` (the shape `datetime.fromisoformat` reads back for
this program's data). -/
def parseIsoChars : List Char → Option DateTime
  | y1 :: y2 :: y3 :: y4 :: '-' :: a1 :: a2 :: '-' :: b1 :: b2 ::
      'T' :: h1 :: h2 :: ':' :: n1 :: n2 :: ':' :: s1 :: s2 :: rest => do
    let y ← digits4 y1 y2 y3 y4
    let mo ← digits2 a1 a2
    let dy ← digits2 b1 b2
    let hr ← digits2 h1 h2
    let mi ← digits2 n1 n2
    let sc ← digits2 s1 s2
    let us ← parseOffsetTail rest
    pure ⟨y, mo, dy, hr, mi, sc, us⟩
  | _ => none

/-- Model of `datetime.fromisoformat` on this program's timestamp strings. -/
def DateTime.fromisoformat (s : String) : Option DateTime :=
  parseIsoChars s.data

/-- One work item (src/issue.py, `@dataclass class Issue`). -/
structure Issue where
  id : Int
  title : String
  description : Option String
  status : Status
  created_at : DateTime
  updated_at : DateTime
  blocked_by : List Int
deriving DecidableEq, Repr

/-- Both timestamps lie in Python datetime's field ranges; true of every
issue the program can construct, since `datetime` enforces them. -/
def Issue.Valid (i : Issue) : Prop := i.created_at.Valid ∧ i.updated_at.Valid

instance (i : Issue) : Decidable i.Valid := by
  unfold Issue.Valid; exact inferInstance

/-- The flat dictionary `Issue.to_dict` writes and `Issue.from_dict`
reads. Every key may be missing (`none`); for `description`, Python's
`.get` does not distinguish a missing key from an explicit `null`, so
one `Option` covers both. -/
structure IssueRecord where
  id : Option Int
  title : Option String
  description : Option String
  status : Option String
  created_at : Option String
  updated_at : Option String
  blocked_by : Option (List Int)
deriving DecidableEq, Repr

/-- Serialization `Issue.to_dict`: the issue as a dictionary. -/
def Issue.to_dict (i : Issue) : IssueRecord :=
  { id := some i.id
    title := some i.title
    description := i.description
    status := some i.status.value
    created_at := some i.created_at.isoformat
    updated_at := some i.updated_at.isoformat
    blocked_by := some i.blocked_by }

/-- Deserialization `Issue.from_dict`. A missing required
key is a `KeyError`, an unknown status tag or unparsable timestamp a
`ValueError`; `description` and `blocked_by` default when missing.
Fields are read in the evaluation order of the Python call. -/
def Issue.from_dict (data : IssueRecord) : Except String Issue := do
  let id ← match data.id with
    | some v => pure v
    | none => throw "KeyError: id"
  let title ← match data.title with
    | some v => pure v
    | none => throw "KeyError: title"
  let description := data.description
  let status ← match data.status with
    | some s =>
      match Status.fromValue s with
      | some st => pure st
      | none => throw ("ValueError: " ++ s ++ " is not a valid Status")
    | none => throw "KeyError: status"
  let created_at ← match data.created_at with
    | some s =>
      match DateTime.fromisoformat s with
      | some t => pure t
      | none => throw ("ValueError: invalid isoformat string " ++ s)
    | none => throw "KeyError: created_at"
  let updated_at ← match data.updated_at with
    | some s =>
      match DateTime.fromisoformat s with
      | some t => pure t
      | none => throw ("ValueError: invalid isoformat string " ++ s)
    | none => throw "KeyError: updated_at"
  pure { id := id, title := title, description := description,
         status := status, created_at := created_at,
         updated_at := updated_at,
         blocked_by := data.blocked_by.getD [] }

/-- Validation `Issue.validate_blocked_by`: a `ValueError` when some referenced ID is
not an existing issue, or when the issue lists itself. -/
def Issue.validate_blocked_by (i : Issue) (existing_ids : Finset Int) :
    Except String Unit :=
  let invalid_ids := i.blocked_by.toFinset \ existing_ids
  if invalid_ids ≠ ∅ then
    .error ("Invalid blocked_by IDs: " ++
      toString (invalid_ids.sort (fun a b => a ≤ b)) ++
      ". These issues do not exist.")
  else if i.id ∈ i.blocked_by then
    .error ("Issue " ++ toString i.id ++ " cannot block itself.")
  else
    .ok ()

/-- Factory `Issue.create` with both timestamps set to the current time
and status forced to OPEN; `blocked_by or []` maps a missing list to the
empty one. -/
def Issue.create (id : Int) (title : String) (description : Option String)
    (blocked_by : Option (List Int)) (now : DateTime) : Issue :=
  { id := id, title := title, description := description,
    status := .OPEN, created_at := now, updated_at := now,
    blocked_by := blocked_by.getD [] }

/-- The single storage-failure kind (src/storage.py, `class
StorageError`), carrying its human-readable message. -/
structure StorageError where
  msg : String
deriving DecidableEq, Repr

/-- One physical line of issues.jsonl as `load_all` sees it after
`line.strip()` and `json.loads`: blank, text the JSON decoder rejects
(with the decoder's message), or a decoded record. -/
inductive Line where
  | blank
  | badJson (msg : String)
  | json (r : IssueRecord)
deriving DecidableEq, Repr

/-- Message of the StorageError raised when `json.loads` fails at a
line. -/
def corruptedMsg (n : Nat) (e : String) : String :=
  "Corrupted JSONL at line " ++ toString n ++ ": " ++ e

/-- Message of the StorageError raised when `Issue.from_dict` fails at a
line. -/
def invalidMsg (n : Nat) (e : String) : String :=
  "Invalid issue data at line " ++ toString n ++ ": " ++ e

/-- The loop of `IssueStore.load_all`, with `n` the 1-based number of
the first remaining line (`enumerate(f, start=1)` counts blank lines
too). The first failure aborts the whole read. -/
def load_all_from (n : Nat) : List Line → Except StorageError (List Issue)
  | [] => .ok []
  | .blank :: rest => load_all_from (n + 1) rest
  | .badJson e :: _ => .error ⟨corruptedMsg n e⟩
  | .json r :: rest =>
    match Issue.from_dict r with
    | .ok issue => (load_all_from (n + 1) rest).map (fun l => issue :: l)
    | .error e => .error ⟨invalidMsg n e⟩

/-- Model of `IssueStore.load_all`: all issues of the file, in file order. A
missing or empty file is the empty line list. -/
def IssueStore.load_all (file : List Line) : Except StorageError (List Issue) :=
  load_all_from 1 file

/-- Model of `IssueStore._write_all`: overwrite the file with one serialized
record per issue. -/
def IssueStore.write_all (issues : List Issue) : List Line :=
  issues.map (fun i => Line.json i.to_dict)

/-- The in-memory step of `IssueStore.save_issue`: replace the first
entry with a matching `id`, or append when none matches. -/
def replaceOrAppend : List Issue → Issue → List Issue
  | [], x => [x]
  | y :: ys, x => if y.id = x.id then x :: ys else y :: replaceOrAppend ys x

/-- Model of `IssueStore.save_issue`: load the full set, update or append the
issue, rewrite the whole file. -/
def IssueStore.save_issue (file : List Line) (issue : Issue) :
    Except StorageError (List Line) := do
  let issues ← IssueStore.load_all file
  pure (IssueStore.write_all (replaceOrAppend issues issue))

/-- Model of `IssueStore.get_by_id`: a linear scan for the first issue with the
given id; absence is a normal `none`, not an error. -/
def IssueStore.get_by_id (file : List Line) (id : Int) :
    Except StorageError (Option Issue) := do
  let issues ← IssueStore.load_all file
  pure (issues.find? (fun i => i.id == id))

/-- Model of `IssueStore.get_all_ids`: the set of all IDs in the log. -/
def IssueStore.get_all_ids (file : List Line) :
    Except StorageError (Finset Int) := do
  let issues ← IssueStore.load_all file
  pure (issues.map (fun i => i.id)).toFinset

/-- Store metadata (meta.json): the ID counter and the format version. -/
structure Meta where
  next_id : Int
  version : String
deriving DecidableEq, Repr

/-- The format tag `IssueStore.VERSION`. -/
def IssueStore.VERSION : String := "1.0"

/-- The meta record `IssueStore.init` writes for a fresh store. -/
def IssueStore.initMeta : Meta := { next_id := 1, version := IssueStore.VERSION }

/-- Model of `IssueStore.get_next_id`: read the counter, return its current
value, persist counter + 1. -/
def IssueStore.get_next_id (m : Meta) : Int × Meta :=
  (m.next_id, { next_id := m.next_id + 1, version := m.version })

/-- Outputs of `n` successive `get_next_id` calls from meta state `m`,
each call running on the state the previous one persisted. -/
def get_next_id_iter (m : Meta) : Nat → List Int
  | 0 => []
  | n + 1 => (IssueStore.get_next_id m).1 ::
      get_next_id_iter (IssueStore.get_next_id m).2 n

/-- Model of `ready` (src/cli.py): an issue is ready when it is open and every
blocker's ID is the ID of a done issue; order of the loaded list is
kept by the filter. `done_ids` is the set comprehension of the source. -/
def ready_work (issues : List Issue) : List Issue :=
  let done_ids : Finset Int :=
    ((issues.filter (fun i => i.status == Status.DONE)).map (fun i => i.id)).toFinset
  issues.filter (fun i =>
    i.status == Status.OPEN && i.blocked_by.all (fun b => decide (b ∈ done_ids)))

/-- The CLI error exits (`SystemExit(1)` paths) and wrapped storage
failures. -/
inductive CliError where
  | storage (e : StorageError)
  | notFound (id : Int)
  | invalidBlockers (ids : List Int)
  | blockerMissing (id : Int)
  | selfBlock
  | noUpdates
deriving DecidableEq, Repr

/-- The `create` command: validate that every requested blocker exists,
allocate the next ID, build the issue (status OPEN, both timestamps
`now`) and save it. The requested `blocked_by` list is passed through
as given. -/
def create_op (file : List Line) (meta : Meta) (title : String)
    (description : Option String) (blocked_by : List Int) (now : DateTime) :
    Except CliError (List Line × Meta × Issue) := do
  let existing_ids ← (IssueStore.get_all_ids file).mapError CliError.storage
  if blocked_by ≠ [] then do
    let invalid_ids := blocked_by.toFinset \ existing_ids
    if invalid_ids ≠ ∅ then
      Except.error (CliError.invalidBlockers (invalid_ids.sort (fun a b => a ≤ b)))
  let p := IssueStore.get_next_id meta
  let issue := Issue.create p.1 title description (some blocked_by) now
  let file2 ← (IssueStore.save_issue file issue).mapError CliError.storage
  pure (file2, p.2, issue)

/-- The `--add-blocker` loop of `update`: each requested ID must exist
and differ from the issue's own ID; an ID already present is skipped,
a new one is appended at the end. -/
def addBlockers (id : Int) (existing_ids : Finset Int)
    (blocked_by : List Int) : List Int → Except CliError (List Int)
  | [] => pure blocked_by
  | bid :: rest =>
    if bid ∉ existing_ids then .error (CliError.blockerMissing bid)
    else if bid = id then .error CliError.selfBlock
    else if bid ∈ blocked_by then addBlockers id existing_ids blocked_by rest
    else addBlockers id existing_ids (blocked_by ++ [bid]) rest

/-- The `--remove-blocker` loop of `update`: `list.remove` drops the
first occurrence of an ID that is present. -/
def removeBlockers (blocked_by : List Int) : List Int → List Int
  | [] => blocked_by
  | bid :: rest =>
    removeBlockers (if bid ∈ blocked_by then blocked_by.erase bid else blocked_by) rest

/-- The `if status:` step of `update`. -/
def applyStatus (i : Issue) : Option Status → Issue
  | some s => { i with status := s }
  | none => i

/-- The `if description is not None:` step of `update`. -/
def applyDescription (i : Issue) : Option String → Issue
  | some d => { i with description := some d }
  | none => i

/-- The `update` command: look the issue up, refuse an empty update,
apply status/description, run the add- and remove-blocker loops,
refresh `updated_at` and save. -/
def update_op (file : List Line) (id : Int) (status : Option Status)
    (description : Option String) (add_blocker remove_blocker : List Int)
    (now : DateTime) : Except CliError (List Line × Issue) := do
  let found ← (IssueStore.get_by_id file id).mapError CliError.storage
  match found with
  | none => .error (CliError.notFound id)
  | some issue0 => do
    if status.isNone ∧ description.isNone ∧
        add_blocker = [] ∧ remove_blocker = [] then
      Except.error CliError.noUpdates
    let issue1 := applyStatus issue0 status
    let issue2 := applyDescription issue1 description
    let existing_ids ← (IssueStore.get_all_ids file).mapError CliError.storage
    let bb1 ← addBlockers id existing_ids issue2.blocked_by add_blocker
    let bb2 := removeBlockers bb1 remove_blocker
    let issue3 := { issue2 with blocked_by := bb2, updated_at := now }
    let file2 ← (IssueStore.save_issue file issue3).mapError CliError.storage
    pure (file2, issue3)

/-- What the `done` command reports. -/
inductive DoneOutcome where
  | notFound
  | alreadyDone
  | completed (blocked newly_ready : List Issue)
deriving DecidableEq, Repr

/-- The `done` command, paired with the resulting file contents: an
unknown ID or an already-done issue leaves the file untouched;
otherwise the issue is marked done and saved, and among the issues it
was blocking, those now open with every blocker done are reported as
newly ready. -/
def done_op (file : List Line) (id : Int) (now : DateTime) :
    Except StorageError (List Line × DoneOutcome) := do
  let found ← IssueStore.get_by_id file id
  match found with
  | none => pure (file, DoneOutcome.notFound)
  | some issue0 =>
    if issue0.status = Status.DONE then
      pure (file, DoneOutcome.alreadyDone)
    else do
      let all_issues ← IssueStore.load_all file
      let blocked_issues := all_issues.filter (fun i => decide (id ∈ i.blocked_by))
      let issue1 := { issue0 with status := Status.DONE, updated_at := now }
      let file2 ← IssueStore.save_issue file issue1
      if blocked_issues ≠ [] then do
        let all2 ← IssueStore.load_all file2
        let done_ids : Finset Int :=
          ((all2.filter (fun i => i.status == Status.DONE)).map (fun i => i.id)).toFinset
        let newly_ready := blocked_issues.filter (fun i =>
          i.status == Status.OPEN && i.blocked_by.all (fun b => decide (b ∈ done_ids)))
        pure (file2, DoneOutcome.completed blocked_issues newly_ready)
      else
        pure (file2, DoneOutcome.completed blocked_issues [])

/-- A sample timestamp within datetime's ranges. -/
def sampleTime : DateTime := ⟨2024, 1, 2, 3, 4, 5, 0⟩

/-- Sample store content: a done issue. -/
def issueA : Issue := ⟨1, "a", none, Status.DONE, sampleTime, sampleTime, []⟩

/-- Sample store content: an open issue blocked by issue 1. -/
def issueB : Issue := ⟨2, "b", none, Status.OPEN, sampleTime, sampleTime, [1]⟩

/-- Sample store content: an updated version of the issue with id 2. -/
def issueB2 : Issue := ⟨2, "b", some "d", Status.IN_PROGRESS, sampleTime, sampleTime, [1]⟩

/-- A line `load_all` accepts: blank, or a record that deserializes. -/
def goodLine : Line → Bool
  | .blank => true
  | .badJson _ => false
  | .json r =>
    match Issue.from_dict r with
    | .ok _ => true
    | .error _ => false

/-- The issue a line contributes to the loaded list, if any. -/
def lineIssue : Line → Option Issue
  | .json r =>
    match Issue.from_dict r with
    | .ok i => some i
    | .error _ => none
  | _ => none

/-- The StorageError message `load_all` raises for a failing line with
1-based number `n`: the JSON-decoder message for structurally malformed
text, the deserialization message for a record `from_dict` rejects. -/
def badMsg (n : Nat) : Line → Option String
  | .badJson e => some (corruptedMsg n e)
  | .json r =>
    match Issue.from_dict r with
    | .error e => some (invalidMsg n e)
    | .ok _ => none
  | .blank => none

/-- An open issue with no blockers, stored alone (for the create
counterexample and the done scenario). -/
def issueC1 : Issue := ⟨1, "c1", none, Status.OPEN, sampleTime, sampleTime, []⟩

/-- An open issue blocked only by issue 1. -/
def issueC2 : Issue := ⟨2, "c2", none, Status.OPEN, sampleTime, sampleTime, [1]⟩

/-- An open issue blocked by issue 1 and by a nonexistent issue 4. -/
def issueC3 : Issue := ⟨3, "c3", none, Status.OPEN, sampleTime, sampleTime, [1, 4]⟩

/-- An open issue with no blockers and id 2 (for the update witness). -/
def issueD : Issue := ⟨2, "d", none, Status.OPEN, sampleTime, sampleTime, []⟩

theorem digitVal_digitChar {n : Nat} (h : n < 10) :
    digitVal (Nat.digitChar n) = some n := by
  interval_cases n <;> rfl

theorem digits2_digitChar {n : Nat} (h : n < 100) :
    digits2 (Nat.digitChar (n / 10)) (Nat.digitChar (n % 10)) = some n := by
  have h1 : n / 10 < 10 := by omega
  have h2 : n % 10 < 10 := by omega
  simp [digits2, digitVal_digitChar h1, digitVal_digitChar h2]
  omega

theorem digits4_pad4 {n : Nat} (h : n < 10000) :
    digits4 (Nat.digitChar (n / 1000)) (Nat.digitChar (n / 100 % 10))
      (Nat.digitChar (n / 10 % 10)) (Nat.digitChar (n % 10)) = some n := by
  have h1 : n / 1000 < 10 := by omega
  have h2 : n / 100 % 10 < 10 := by omega
  have h3 : n / 10 % 10 < 10 := by omega
  have h4 : n % 10 < 10 := by omega
  simp [digits4, digits2, digitVal_digitChar h1, digitVal_digitChar h2,
    digitVal_digitChar h3, digitVal_digitChar h4]
  omega

theorem digits6_pad6 {n : Nat} (h : n < 1000000) :
    digits6 (Nat.digitChar (n / 100000)) (Nat.digitChar (n / 10000 % 10))
      (Nat.digitChar (n / 1000 % 10)) (Nat.digitChar (n / 100 % 10))
      (Nat.digitChar (n / 10 % 10)) (Nat.digitChar (n % 10)) = some n := by
  have h1 : n / 100000 < 10 := by omega
  have h2 : n / 10000 % 10 < 10 := by omega
  have h3 : n / 1000 % 10 < 10 := by omega
  have h4 : n / 100 % 10 < 10 := by omega
  have h5 : n / 10 % 10 < 10 := by omega
  have h6 : n % 10 < 10 := by omega
  simp [digits6, digits4, digits2, digitVal_digitChar h1, digitVal_digitChar h2,
    digitVal_digitChar h3, digitVal_digitChar h4, digitVal_digitChar h5,
    digitVal_digitChar h6]
  omega

theorem parseOffsetTail_pad6 {u : Nat} (hu : u < 1000000) :
    parseOffsetTail ('.' :: pad6 u ++ ['+', '0', '0', ':', '0', '0']) =
      some u := by
  simp [pad6, parseOffsetTail, digits6_pad6 hu]

/-- The timestamp encoding is lossless: parsing the ISO form of any
datetime within Python's field ranges recovers it exactly. -/
theorem DateTime.fromisoformat_isoformat {d : DateTime} (h : d.Valid) :
    DateTime.fromisoformat d.isoformat = some d := by
  obtain ⟨h1, h2, h3, h4, h5, h6, h7, h8, h9, h10⟩ := h
  have hy := digits4_pad4 (n := d.year) (by omega)
  have hmo := digits2_digitChar (n := d.month) (by omega)
  have hd := digits2_digitChar (n := d.day) (by omega)
  have hh := digits2_digitChar (n := d.hour) (by omega)
  have hmi := digits2_digitChar (n := d.minute) (by omega)
  have hs := digits2_digitChar (n := d.second) (by omega)
  show parseIsoChars _ = some d
  by_cases hus : d.microsecond = 0
  · simp [DateTime.isoformat, pad4, pad2, hus, parseIsoChars, hy, hmo, hd,
      hh, hmi, hs, parseOffsetTail]
    rw [← hus]
  · have hu := parseOffsetTail_pad6 (u := d.microsecond) (by omega)
    simp [DateTime.isoformat, pad4, pad2, hus, parseIsoChars, hy, hmo, hd,
      hh, hmi, hs]
    simp only [pad6, List.cons_append, List.nil_append] at hu ⊢
    rw [hu]
    rfl

theorem Status.fromValue_value (s : Status) :
    Status.fromValue s.value = some s := by
  cases s <;> rfl

/-- Serialization is lossless: deserializing the serialized record of
any issue (timestamps within datetime's ranges) restores it exactly. -/
theorem Issue.from_dict_to_dict {i : Issue} (h : i.Valid) :
    Issue.from_dict i.to_dict = .ok i := by
  obtain ⟨hc, hu⟩ := h
  have h1 := DateTime.fromisoformat_isoformat hc
  have h2 := DateTime.fromisoformat_isoformat hu
  simp [Issue.to_dict, Issue.from_dict, Status.fromValue_value, h1, h2]
  rfl

/-- Writing a set of valid issues and loading it back restores the set,
whatever line number the read starts at. -/
theorem load_all_from_write {l : List Issue} (hv : ∀ i ∈ l, i.Valid)
    (n : Nat) : load_all_from n (IssueStore.write_all l) = .ok l := by
  induction l generalizing n with
  | nil => rfl
  | cons x xs ih =>
    have hx : x.Valid := hv x (List.mem_cons_self x xs)
    have hxs : ∀ i ∈ xs, i.Valid := fun i hi => hv i (List.mem_cons_of_mem x hi)
    have ihn := ih hxs (n + 1)
    simp only [IssueStore.write_all, List.map_cons]
    simp only [IssueStore.write_all] at ihn
    simp [load_all_from, Issue.from_dict_to_dict hx, ihn, Except.map]

/-- Loading back a whole-file rewrite of valid issues yields exactly the
written list. -/
theorem load_all_write_all {l : List Issue} (hv : ∀ i ∈ l, i.Valid) :
    IssueStore.load_all (IssueStore.write_all l) = .ok l :=
  load_all_from_write hv 1

/-- Every element of `replaceOrAppend l x` is an element of `l` or `x`
itself. -/
theorem mem_replaceOrAppend {l : List Issue} {x z : Issue}
    (h : z ∈ replaceOrAppend l x) : z ∈ l ∨ z = x := by
  induction l with
  | nil => simp [replaceOrAppend] at h; right; exact h
  | cons y ys ih =>
    by_cases hy : y.id = x.id
    · simp [replaceOrAppend, hy] at h
      rcases h with h | h
      · right; exact h
      · left; exact List.mem_cons_of_mem y h
    · simp [replaceOrAppend, hy] at h
      rcases h with h | h
      · left; simp [h]
      · rcases ih h with h' | h'
        · left; exact List.mem_cons_of_mem y h'
        · right; exact h'

/-- An element whose id differs from `x.id` survives `replaceOrAppend`
unchanged. -/
theorem mem_replaceOrAppend_of_ne {l : List Issue} {x z : Issue}
    (hz : z ∈ l) (hne : z.id ≠ x.id) : z ∈ replaceOrAppend l x := by
  induction l with
  | nil => cases hz
  | cons y ys ih =>
    by_cases hy : y.id = x.id
    · simp [replaceOrAppend, hy]
      rcases List.mem_cons.mp hz with h | h
      · exact absurd (h ▸ hy) hne
      · right; exact h
    · simp [replaceOrAppend, hy]
      rcases List.mem_cons.mp hz with h | h
      · left; exact h
      · right; exact ih h

/-- When no two stored ids collide, `replaceOrAppend` is exactly the
replace-or-append map of the specification. -/
theorem replaceOrAppend_eq_of_nodup {l : List Issue} {x : Issue}
    (hnd : (l.map Issue.id).Nodup) :
    replaceOrAppend l x =
      if x.id ∈ l.map Issue.id
      then l.map (fun y => if y.id = x.id then x else y)
      else l ++ [x] := by
  induction l with
  | nil => simp [replaceOrAppend]
  | cons y ys ih =>
    simp only [List.map_cons, List.nodup_cons] at hnd
    obtain ⟨hy_notin, hnd'⟩ := hnd
    by_cases hy : y.id = x.id
    · have hmem : x.id ∈ (y :: ys).map Issue.id := by simp [hy]
      have hys : ys.map (fun z => if z.id = x.id then x else z) = ys := by
        conv_rhs => rw [← List.map_id ys]
        apply List.map_congr_left
        intro z hz
        have hne : z.id ≠ x.id := fun h =>
          hy_notin (hy ▸ h ▸ List.mem_map_of_mem Issue.id hz)
        simp [hne]
      simp [replaceOrAppend, hy, hmem, hys]
    · by_cases hx : x.id ∈ ys.map Issue.id
      · have hmem : x.id ∈ (y :: ys).map Issue.id := by simp [hx]
        simp [replaceOrAppend, hy, hmem, ih hnd', hx]
      · have hxy : ¬ x.id = y.id := fun h => hy h.symm
        have hmem : x.id ∉ (y :: ys).map Issue.id := by simp [hx, hxy]
        simp [replaceOrAppend, hy, hmem, ih hnd', hx, hxy]

/-- Replacing-or-appending the same issue twice is the same as once. -/
theorem replaceOrAppend_idem (l : List Issue) (x : Issue) :
    replaceOrAppend (replaceOrAppend l x) x = replaceOrAppend l x := by
  induction l with
  | nil => simp [replaceOrAppend]
  | cons y ys ih =>
    by_cases hy : y.id = x.id
    · simp [replaceOrAppend, hy]
    · simp [replaceOrAppend, hy, ih]

/-- The add-blocker loop only ever appends IDs not already present, so
it preserves freedom from duplicates. -/
theorem addBlockers_nodup {id : Int} {ex : Finset Int}
    {bb adds out : List Int} (h : addBlockers id ex bb adds = .ok out)
    (hnd : bb.Nodup) : out.Nodup := by
  induction adds generalizing bb with
  | nil =>
    simp only [addBlockers, pure, Except.pure, Except.ok.injEq] at h
    exact h ▸ hnd
  | cons bid rest ih =>
    rw [addBlockers] at h
    by_cases h1 : bid ∉ ex
    · rw [if_pos h1] at h; cases h
    · rw [if_neg h1] at h
      by_cases h2 : bid = id
      · rw [if_pos h2] at h; cases h
      · rw [if_neg h2] at h
        by_cases h3 : bid ∈ bb
        · rw [if_pos h3] at h; exact ih h hnd
        · rw [if_neg h3] at h
          refine ih h ?_
          simp [List.nodup_append, hnd, h3]

/-- The remove-blocker loop removes at most elements, preserving
freedom from duplicates. -/
theorem removeBlockers_nodup {bb : List Int} (rems : List Int)
    (hnd : bb.Nodup) : (removeBlockers bb rems).Nodup := by
  induction rems generalizing bb with
  | nil => simpa [removeBlockers]
  | cons bid rest ih =>
    rw [removeBlockers]
    by_cases hb : bid ∈ bb
    · simpa [hb] using ih (hnd.erase bid)
    · simpa [hb] using ih hnd

/-- C1: for every loaded issue collection, `ready` returns exactly the
open issues whose every `blocked_by` ID is the ID of a done issue of
the collection (empty `blocked_by` qualifies; an ID matching no issue
is never satisfied), and the result is a subsequence of the collection,
preserving load order. -/
theorem ready_work_correct : ∀ issues : List Issue,
    (∀ i, i ∈ ready_work issues ↔
      i ∈ issues ∧ i.status = Status.OPEN ∧
        ∀ b ∈ i.blocked_by, ∃ j ∈ issues, j.id = b ∧ j.status = Status.DONE) ∧
    (ready_work issues).Sublist issues := by
  intro issues
  refine ⟨fun i => ?_, List.filter_sublist _⟩
  simp only [ready_work, List.mem_filter, Bool.and_eq_true, beq_iff_eq,
    List.all_eq_true, decide_eq_true_eq, List.mem_toFinset, List.mem_map,
    List.mem_filter]
  constructor
  · rintro ⟨hmem, hopen, hb⟩
    refine ⟨hmem, hopen, fun b hbb => ?_⟩
    obtain ⟨j, ⟨hj, hjd⟩, hjb⟩ := hb b hbb
    exact ⟨j, hj, hjb, hjd⟩
  · rintro ⟨hmem, hopen, hb⟩
    refine ⟨hmem, hopen, fun b hbb => ?_⟩
    obtain ⟨j, hj, hjb, hjd⟩ := hb b hbb
    exact ⟨j, ⟨hj, hjd⟩, hjb⟩

/-- C2: deserializing the serialized record of any valid issue — any
status, with or without description or blockers — restores the issue
exactly. -/
theorem issue_serialization_roundtrip (i : Issue) (h : i.Valid) :
    Issue.from_dict i.to_dict = .ok i :=
  Issue.from_dict_to_dict h

/-- Witness for C2: the round trip at a concrete issue carrying a
description, blockers and a fractional timestamp. -/
theorem issue_serialization_roundtrip_witness :
    Issue.from_dict (Issue.to_dict
      ⟨3, "t", some "d", Status.IN_PROGRESS,
       ⟨2024, 5, 6, 7, 8, 9, 123456⟩, ⟨2024, 5, 6, 7, 8, 10, 0⟩, [1, 2]⟩) =
    .ok ⟨3, "t", some "d", Status.IN_PROGRESS,
       ⟨2024, 5, 6, 7, 8, 9, 123456⟩, ⟨2024, 5, 6, 7, 8, 10, 0⟩, [1, 2]⟩ :=
  issue_serialization_roundtrip _ (by decide)

/-- Iterating `get_next_id` from counter `c` returns `c, c+1, c+2` and so on. -/
theorem get_next_id_iter_eq (c : Int) (v : String) :
    ∀ n : Nat, get_next_id_iter ⟨c, v⟩ n =
      (List.range n).map (fun (k : Nat) => c + (k : Int)) := by
  intro n
  induction n generalizing c with
  | zero => rfl
  | succ n ih =>
    rw [List.range_succ_eq_map]
    simp only [get_next_id_iter, IssueStore.get_next_id, List.map_cons,
      List.map_map]
    refine congrArg₂ _ (by simp) ?_
    rw [ih (c + 1)]
    apply List.map_congr_left
    intro k _
    simp
    ring

/-- C3: on a fresh store (`init` persists counter 1) successive
`get_next_id` calls return 1, 2, 3, ... — strictly increasing from 1 —
and every single call returns the persisted counter while persisting
counter + 1, whether or not the caller uses the value. -/
theorem get_next_id_monotone :
    (∀ n : Nat, get_next_id_iter IssueStore.initMeta n =
      (List.range n).map (fun (k : Nat) => (k : Int) + 1)) ∧
    (∀ m : Meta, IssueStore.get_next_id m =
      (m.next_id, { next_id := m.next_id + 1, version := m.version })) := by
  constructor
  · intro n
    rw [show IssueStore.initMeta = ⟨1, IssueStore.VERSION⟩ from rfl,
      get_next_id_iter_eq 1 IssueStore.VERSION n]
    apply List.map_congr_left
    intro k _
    ring
  · intro m
    rfl

/-- When every line is acceptable, the loop returns every record's
issue in file order, skipping blanks, whatever its starting number. -/
theorem load_all_from_ok {file : List Line}
    (h : ∀ l ∈ file, goodLine l = true) (n : Nat) :
    load_all_from n file = .ok (file.filterMap lineIssue) := by
  induction file generalizing n with
  | nil => rfl
  | cons l rest ih =>
    have hl : goodLine l = true := h l (List.mem_cons_self l rest)
    have hrest : ∀ l' ∈ rest, goodLine l' = true :=
      fun l' hl' => h l' (List.mem_cons_of_mem l hl')
    cases l with
    | blank =>
      simpa [load_all_from, lineIssue] using ih hrest (n + 1)
    | badJson e => simp [goodLine] at hl
    | json r =>
      cases hfd : Issue.from_dict r with
      | error e => simp [goodLine, hfd] at hl
      | ok i =>
        simp [load_all_from, hfd, lineIssue, ih hrest (n + 1), Except.map]

/-- The loop fails on the first unacceptable line with that line's
message, whatever its starting number; nothing is returned. -/
theorem load_all_from_error {pre : List Line} (bad : Line)
    (post : List Line) (n : Nat) (hpre : ∀ l ∈ pre, goodLine l = true)
    (hbad : goodLine bad = false) :
    ∃ msg, badMsg (n + pre.length) bad = some msg ∧
      load_all_from n (pre ++ bad :: post) = .error ⟨msg⟩ := by
  induction pre generalizing n with
  | nil =>
    cases bad with
    | blank => simp [goodLine] at hbad
    | badJson e => exact ⟨corruptedMsg n e, by simp [badMsg], by simp [load_all_from]⟩
    | json r =>
      cases hfd : Issue.from_dict r with
      | ok i => simp [goodLine, hfd] at hbad
      | error e =>
        exact ⟨invalidMsg n e, by simp [badMsg, hfd], by simp [load_all_from, hfd]⟩
  | cons p pre ih =>
    have hp : goodLine p = true := hpre p (List.mem_cons_self p pre)
    have hpre' : ∀ l ∈ pre, goodLine l = true :=
      fun l hl => hpre l (List.mem_cons_of_mem p hl)
    have hlen : n + 1 + pre.length = n + (pre.length + 1) := by omega
    cases p with
    | blank =>
      obtain ⟨msg, hmsg, hload⟩ := ih (n + 1) hpre'
      rw [hlen] at hmsg
      exact ⟨msg, by simpa using hmsg, by simpa [load_all_from] using hload⟩
    | badJson e => simp [goodLine] at hp
    | json r =>
      cases hfd : Issue.from_dict r with
      | error e => simp [goodLine, hfd] at hp
      | ok i =>
        obtain ⟨msg, hmsg, hload⟩ := ih (n + 1) hpre'
        rw [hlen] at hmsg
        refine ⟨msg, by simpa using hmsg, ?_⟩
        simp [load_all_from, hfd, hload, Except.map]

/-- C4: `load_all` skips blank lines; when every non-blank line is
well-formed it returns all issues in file order, and when some line is
structurally malformed or fails deserialization it returns no list at
all but a StorageError whose message carries the 1-based number of the
first offending line and the underlying cause. -/
theorem load_all_error_handling : ∀ file : List Line,
    ((∀ l ∈ file, goodLine l = true) →
      IssueStore.load_all file = .ok (file.filterMap lineIssue)) ∧
    (∀ pre bad post, file = pre ++ bad :: post →
      (∀ l ∈ pre, goodLine l = true) → goodLine bad = false →
      ∃ msg, badMsg (pre.length + 1) bad = some msg ∧
        IssueStore.load_all file = .error ⟨msg⟩) := by
  intro file
  constructor
  · intro h
    exact load_all_from_ok h 1
  · intro pre bad post hfile hpre hbad
    obtain ⟨msg, hmsg, hload⟩ := load_all_from_error bad post 1 hpre hbad
    rw [Nat.add_comm 1 pre.length] at hmsg
    exact ⟨msg, hmsg, hfile ▸ hload⟩

/-- C6: validation fails exactly when some `blocked_by` ID is absent
from the existing-ID set or the issue lists its own ID; being a pure
function of the issue and the set, it returns only a unit or an error
and cannot mutate the issue. -/
theorem validate_blocked_by_iff :
    ∀ (i : Issue) (existing_ids : Finset Int),
      (∃ e, i.validate_blocked_by existing_ids = .error e) ↔
      ((∃ b ∈ i.blocked_by, b ∉ existing_ids) ∨ i.id ∈ i.blocked_by) := by
  intro i ex
  unfold Issue.validate_blocked_by
  by_cases h1 : i.blocked_by.toFinset \ ex ≠ ∅
  · have hb : ∃ b ∈ i.blocked_by, b ∉ ex := by
      obtain ⟨b, hbmem⟩ := Finset.nonempty_iff_ne_empty.mpr h1
      rw [Finset.mem_sdiff, List.mem_toFinset] at hbmem
      exact ⟨b, hbmem.1, hbmem.2⟩
    simp only [if_pos h1]
    exact ⟨fun _ => Or.inl hb, fun _ => ⟨_, rfl⟩⟩
  · have h1' : i.blocked_by.toFinset \ ex = ∅ := not_not.mp h1
    rw [if_neg h1]
    by_cases h2 : i.id ∈ i.blocked_by
    · rw [if_pos h2]
      exact ⟨fun _ => Or.inr h2, fun _ => ⟨_, rfl⟩⟩
    · rw [if_neg h2]
      constructor
      · rintro ⟨e, he⟩
        cases he
      · rintro (⟨b, hbb, hbe⟩ | h2')
        · exact absurd
            (Finset.sdiff_eq_empty_iff_subset.mp h1' (List.mem_toFinset.mpr hbb))
            hbe
        · exact absurd h2' h2

/-- C5: saving `x` over a store holding `issues` (pairwise distinct
ids, as the allocator guarantees) rewrites the log so that it loads
back as `issues` with the entry carrying `x.id` replaced by `x` when
one exists, and as `issues` with `x` appended otherwise; entries with
other ids are untouched and keep their order. -/
theorem save_issue_replaces_or_appends (issues : List Issue) (x : Issue)
    (hv : ∀ i ∈ issues, i.Valid) (hx : x.Valid)
    (hnd : (issues.map Issue.id).Nodup) :
    ∃ file2,
      IssueStore.save_issue (IssueStore.write_all issues) x = .ok file2 ∧
      IssueStore.load_all file2 = .ok
        (if x.id ∈ issues.map Issue.id
         then issues.map (fun y => if y.id = x.id then x else y)
         else issues ++ [x]) := by
  have hload := load_all_write_all hv
  have hout : ∀ z ∈ replaceOrAppend issues x, z.Valid := fun z hz =>
    (mem_replaceOrAppend hz).elim (hv z) (fun h => h ▸ hx)
  refine ⟨IssueStore.write_all (replaceOrAppend issues x), ?_, ?_⟩
  · unfold IssueStore.save_issue
    rw [hload]
    rfl
  · rw [load_all_write_all hout, replaceOrAppend_eq_of_nodup hnd]

/-- Witness for C5 at a concrete two-issue store, updating the issue
with id 2. -/
theorem save_issue_replaces_or_appends_witness :
    ∃ file2,
      IssueStore.save_issue (IssueStore.write_all [issueA, issueB]) issueB2 =
        .ok file2 ∧
      IssueStore.load_all file2 = .ok
        (if issueB2.id ∈ [issueA, issueB].map Issue.id
         then [issueA, issueB].map (fun y => if y.id = issueB2.id then issueB2 else y)
         else [issueA, issueB] ++ [issueB2]) :=
  save_issue_replaces_or_appends [issueA, issueB] issueB2
    (by decide) (by decide) (by decide)

/-- C7: saving the same issue twice in a row produces, after the second
save, the very same record log as after the first — the loaded content
is identical and no duplicate entry appears. -/
theorem save_issue_idempotent (issues : List Issue) (x : Issue)
    (hv : ∀ i ∈ issues, i.Valid) (hx : x.Valid) :
    ∃ file1 content,
      IssueStore.save_issue (IssueStore.write_all issues) x = .ok file1 ∧
      IssueStore.load_all file1 = .ok content ∧
      IssueStore.save_issue file1 x = .ok file1 := by
  have hload := load_all_write_all hv
  have hout : ∀ z ∈ replaceOrAppend issues x, z.Valid := fun z hz =>
    (mem_replaceOrAppend hz).elim (hv z) (fun h => h ▸ hx)
  refine ⟨IssueStore.write_all (replaceOrAppend issues x),
    replaceOrAppend issues x, ?_, load_all_write_all hout, ?_⟩
  · unfold IssueStore.save_issue
    rw [hload]
    rfl
  · unfold IssueStore.save_issue
    rw [load_all_write_all hout]
    show Except.ok (IssueStore.write_all (replaceOrAppend (replaceOrAppend issues x) x)) = _
    rw [replaceOrAppend_idem]

/-- Witness for C7 at a concrete store: saving an updated issue twice. -/
theorem save_issue_idempotent_witness :
    ∃ file1 content,
      IssueStore.save_issue (IssueStore.write_all [issueA, issueB]) issueB2 =
        .ok file1 ∧
      IssueStore.load_all file1 = .ok content ∧
      IssueStore.save_issue file1 issueB2 = .ok file1 :=
  save_issue_idempotent [issueA, issueB] issueB2 (by decide) (by decide)

/-- Binding an `Except.ok` feeds its payload straight to the continuation. -/
theorem ok_bind {ε : Type u} {α β : Type v} (a : α) (f : α → Except ε β) :
    (Except.ok a : Except ε α) >>= f = f a := rfl

/-- Binding an `Except.error` short-circuits. -/
theorem error_bind {ε : Type u} {α β : Type v} (e : ε) (f : α → Except ε β) :
    (Except.error e : Except ε α) >>= f = Except.error e := rfl

/-- C10: completing an issue that is already done saves nothing: the
record log (timestamps included) is returned untouched and the outcome
is the already-done report, not an error. -/
theorem done_already_done_noop (file : List Line) (id : Int)
    (now : DateTime) (issue : Issue)
    (hfind : IssueStore.get_by_id file id = .ok (some issue))
    (hdone : issue.status = Status.DONE) :
    done_op file id now = .ok (file, DoneOutcome.alreadyDone) := by
  unfold done_op
  rw [hfind, ok_bind]
  simp [hdone]
  rfl

/-- Witness for C10: completing the already-done issue 1 of a concrete
store leaves the file exactly as it was. -/
theorem done_already_done_noop_witness :
    done_op (IssueStore.write_all [issueA, issueB]) 1 sampleTime =
      .ok (IssueStore.write_all [issueA, issueB], DoneOutcome.alreadyDone) :=
  done_already_done_noop _ 1 sampleTime issueA rfl rfl

/-- Mapping the error of a success is the identity. -/
theorem mapError_ok {ε ε' : Type u} {α : Type v} (f : ε → ε') (a : α) :
    (Except.ok a : Except ε α).mapError f = .ok a := rfl

/-- Mapping the error of a failure rewraps it. -/
theorem mapError_error {ε ε' : Type u} {α : Type v} (f : ε → ε') (e : ε) :
    (Except.error e : Except ε α).mapError f = .error (f e) := rfl

/-- Applying a status update never touches `blocked_by`. -/
theorem applyStatus_blocked_by (i : Issue) (st : Option Status) :
    (applyStatus i st).blocked_by = i.blocked_by := by
  cases st <;> rfl

/-- Applying a description update never touches `blocked_by`. -/
theorem applyDescription_blocked_by (i : Issue) (ds : Option String) :
    (applyDescription i ds).blocked_by = i.blocked_by := by
  cases ds <;> rfl

/-- Counterexample to C9: `create` stores its `blocked_by` argument
verbatim, so requesting the same (existing) blocker twice produces a
stored issue whose `blocked_by` is `[1, 1]` — a duplicate, reached
through the public create operation. -/
theorem create_duplicate_blockers_cex :
    ∃ file2 meta2 issue,
      create_op (IssueStore.write_all [issueC1]) ⟨2, IssueStore.VERSION⟩ "b"
        none [1, 1] sampleTime = .ok (file2, meta2, issue) ∧
      issue.blocked_by = [1, 1] ∧ ¬ issue.blocked_by.Nodup :=
  ⟨_, _, _, rfl, rfl, by decide⟩

/-- C9 (amended): the update operation never accumulates duplicates —
when the stored issue's `blocked_by` is duplicate-free, the saved
issue's `blocked_by` still is, because add-blocker appends only IDs not
already present (keeping insertion order) and remove-blocker only
removes; create, by contrast, copies its input list as is. -/
theorem update_preserves_nodup_blockers (file : List Line) (id : Int)
    (status : Option Status) (description : Option String)
    (add_blocker remove_blocker : List Int) (now : DateTime)
    (file2 : List Line) (issue2 : Issue)
    (h : update_op file id status description add_blocker remove_blocker now
      = .ok (file2, issue2))
    (h0 : ∀ orig, IssueStore.get_by_id file id = .ok (some orig) →
      orig.blocked_by.Nodup) :
    issue2.blocked_by.Nodup := by
  unfold update_op at h
  cases hgb : IssueStore.get_by_id file id with
  | error e =>
    rw [hgb, mapError_error, error_bind] at h
    cases h
  | ok found =>
    rw [hgb, mapError_ok, ok_bind] at h
    cases found with
    | none => cases h
    | some orig =>
      have hnd0 : orig.blocked_by.Nodup := h0 orig hgb
      dsimp only at h
      by_cases hupd : (status.isNone ∧ description.isNone ∧
          add_blocker = [] ∧ remove_blocker = [])
      · rw [if_pos hupd, error_bind] at h
        cases h
      · rw [if_neg hupd, pure_bind] at h
        cases hga : IssueStore.get_all_ids file with
        | error e =>
          rw [hga, mapError_error, error_bind] at h
          cases h
        | ok ex =>
          rw [hga, mapError_ok, ok_bind] at h
          cases hab : addBlockers id ex
              (applyDescription (applyStatus orig status) description).blocked_by
              add_blocker with
          | error e =>
            rw [hab, error_bind] at h
            cases h
          | ok bb1 =>
            rw [hab, ok_bind] at h
            cases hsv : IssueStore.save_issue file
                { applyDescription (applyStatus orig status) description with
                  blocked_by := removeBlockers bb1 remove_blocker,
                  updated_at := now } with
            | error e =>
              rw [hsv, mapError_error, error_bind] at h
              cases h
            | ok f2 =>
              rw [hsv, mapError_ok, ok_bind] at h
              have hissue : issue2 =
                  { applyDescription (applyStatus orig status) description with
                    blocked_by := removeBlockers bb1 remove_blocker,
                    updated_at := now } := by
                cases h
                rfl
              rw [hissue]
              exact removeBlockers_nodup remove_blocker
                (addBlockers_nodup hab (by
                  rw [applyDescription_blocked_by, applyStatus_blocked_by]
                  exact hnd0))

/-- Witness for the amended C9: adding blocker 1 to issue 2 of a
concrete store yields a duplicate-free `blocked_by`. -/
theorem update_preserves_nodup_blockers_witness :
    ∃ file2 issue2,
      update_op (IssueStore.write_all [issueC1, issueD]) 2 none none
        [1] [] sampleTime = .ok (file2, issue2) ∧
      issue2.blocked_by.Nodup :=
  ⟨_, _, rfl,
    update_preserves_nodup_blockers
      (IssueStore.write_all [issueC1, issueD]) 2 none none [1] [] sampleTime
      _ _ rfl
      (by
        intro orig horig
        have h' : (Except.ok (some issueD) :
            Except StorageError (Option Issue)) = Except.ok (some orig) := by
          rw [← horig]
          rfl
        cases h'
        decide)⟩

/-- C8: in a well-formed store (valid issues, distinct ids, the
completed issue not blocking itself), completing a not-yet-done issue
reports as newly ready exactly the issues that were blocked by it and
are, in the post-change collection, open with every one of their
`blocked_by` IDs belonging to a done issue; one with another blocker
that is not done is not reported. -/
theorem done_reports_newly_ready (issues : List Issue) (id : Int)
    (issue : Issue) (now : DateTime)
    (hv : ∀ i ∈ issues, i.Valid) (hnow : now.Valid)
    (hnd : (issues.map Issue.id).Nodup)
    (hfind : IssueStore.get_by_id (IssueStore.write_all issues) id =
      .ok (some issue))
    (hnotdone : issue.status ≠ Status.DONE)
    (hself : id ∉ issue.blocked_by) :
    ∃ file2 newly,
      done_op (IssueStore.write_all issues) id now =
        .ok (file2, DoneOutcome.completed
          (issues.filter (fun i => decide (id ∈ i.blocked_by))) newly) ∧
      ∀ i, i ∈ newly ↔
        (i ∈ issues ∧ id ∈ i.blocked_by ∧
         i ∈ replaceOrAppend issues
            { issue with status := Status.DONE, updated_at := now } ∧
         i.status = Status.OPEN ∧
         ∀ b ∈ i.blocked_by,
           ∃ j ∈ replaceOrAppend issues
              { issue with status := Status.DONE, updated_at := now },
             j.id = b ∧ j.status = Status.DONE) := by
  have hload := load_all_write_all hv
  have hfindlist : issues.find? (fun i => i.id == id) = some issue := by
    unfold IssueStore.get_by_id at hfind
    rw [hload, ok_bind] at hfind
    exact Except.ok.inj hfind
  have hmem : issue ∈ issues := List.mem_of_find?_eq_some hfindlist
  have hid : issue.id = id := by
    have := List.find?_some hfindlist
    simpa using this
  set issue1 : Issue :=
    { issue with status := Status.DONE, updated_at := now } with hissue1
  have hvalid1 : issue1.Valid := ⟨(hv issue hmem).1, hnow⟩
  set out := replaceOrAppend issues issue1 with hout
  have houtv : ∀ z ∈ out, z.Valid := fun z hz =>
    (mem_replaceOrAppend hz).elim (hv z) (fun h => h ▸ hvalid1)
  have hsave : IssueStore.save_issue (IssueStore.write_all issues) issue1 =
      .ok (IssueStore.write_all out) := by
    unfold IssueStore.save_issue
    rw [hload]
    rfl
  have hload2 := load_all_write_all houtv
  unfold done_op
  rw [hfind, ok_bind]
  dsimp only
  rw [if_neg hnotdone, hload, ok_bind, hsave, ok_bind]
  set blocked := issues.filter (fun i => decide (id ∈ i.blocked_by)) with hblocked
  set done_ids : Finset Int :=
    ((out.filter (fun i => i.status == Status.DONE)).map (fun i => i.id)).toFinset
    with hdone_ids
  set newly := blocked.filter (fun i =>
    i.status == Status.OPEN && i.blocked_by.all (fun b => decide (b ∈ done_ids)))
    with hnewly
  have hresult :
      (if blocked ≠ [] then do
          let all2 ← IssueStore.load_all (IssueStore.write_all out)
          let done_ids2 : Finset Int :=
            ((all2.filter (fun i => i.status == Status.DONE)).map
              (fun i => i.id)).toFinset
          let newly2 := blocked.filter (fun i =>
            i.status == Status.OPEN &&
              i.blocked_by.all (fun b => decide (b ∈ done_ids2)))
          pure (IssueStore.write_all out, DoneOutcome.completed blocked newly2)
        else
          pure (IssueStore.write_all out, DoneOutcome.completed blocked [])) =
      Except.ok (IssueStore.write_all out, DoneOutcome.completed blocked newly) := by
    by_cases hbl : blocked = []
    · rw [if_neg (not_not.mpr hbl)]
      simp [hnewly, hbl]
      rfl
    · rw [if_pos hbl, hload2, ok_bind]
      rfl
  refine ⟨IssueStore.write_all out, newly, ?_, ?_⟩
  · exact hresult
  · intro i
    have hinj := List.inj_on_of_nodup_map hnd
    constructor
    · intro hin
      rw [hnewly, List.mem_filter] at hin
      obtain ⟨hinb, hcond⟩ := hin
      rw [hblocked, List.mem_filter] at hinb
      obtain ⟨hiniss, hibb⟩ := hinb
      rw [decide_eq_true_eq] at hibb
      rw [Bool.and_eq_true, beq_iff_eq, List.all_eq_true] at hcond
      obtain ⟨hiopen, hball⟩ := hcond
      have hine : i.id ≠ id := by
        intro hcontra
        have : i = issue := hinj hiniss hmem (by rw [hcontra, hid])
        exact hself (this ▸ hibb)
      have hiout : i ∈ out :=
        mem_replaceOrAppend_of_ne hiniss (by
          rw [hissue1]
          exact fun hh => hine (hh.trans hid))
      refine ⟨hiniss, hibb, hiout, hiopen, fun b hb => ?_⟩
      have := hball b hb
      rw [decide_eq_true_eq, hdone_ids, List.mem_toFinset, List.mem_map] at this
      obtain ⟨j, hjf, hjid⟩ := this
      rw [List.mem_filter, beq_iff_eq] at hjf
      exact ⟨j, hjf.1, hjid, hjf.2⟩
    · rintro ⟨hiniss, hibb, hiout, hiopen, hball⟩
      rw [hnewly, List.mem_filter]
      refine ⟨?_, ?_⟩
      · rw [hblocked, List.mem_filter]
        exact ⟨hiniss, by rw [decide_eq_true_eq]; exact hibb⟩
      · rw [Bool.and_eq_true, beq_iff_eq, List.all_eq_true]
        refine ⟨hiopen, fun b hb => ?_⟩
        obtain ⟨j, hjout, hjid, hjdone⟩ := hball b hb
        rw [decide_eq_true_eq, hdone_ids, List.mem_toFinset, List.mem_map]
        exact ⟨j, List.mem_filter.mpr ⟨hjout, by rw [beq_iff_eq]; exact hjdone⟩, hjid⟩

/-- Witness for C8: completing issue 1, which blocks issues 2 and 3 of
a concrete store (issue 3 also has a nonexistent blocker 4). -/
theorem done_reports_newly_ready_witness :
    ∃ file2 newly,
      done_op (IssueStore.write_all [issueC1, issueC2, issueC3]) 1 sampleTime =
        .ok (file2, DoneOutcome.completed
          ([issueC1, issueC2, issueC3].filter
            (fun i => decide ((1 : Int) ∈ i.blocked_by))) newly) ∧
      ∀ i, i ∈ newly ↔
        (i ∈ [issueC1, issueC2, issueC3] ∧ (1 : Int) ∈ i.blocked_by ∧
         i ∈ replaceOrAppend [issueC1, issueC2, issueC3]
            { issueC1 with status := Status.DONE, updated_at := sampleTime } ∧
         i.status = Status.OPEN ∧
         ∀ b ∈ i.blocked_by,
           ∃ j ∈ replaceOrAppend [issueC1, issueC2, issueC3]
              { issueC1 with status := Status.DONE, updated_at := sampleTime },
             j.id = b ∧ j.status = Status.DONE) :=
  done_reports_newly_ready [issueC1, issueC2, issueC3] 1 issueC1 sampleTime
    (by decide) (by decide) (by decide) rfl (by decide) (by decide)

example : ready_work [issueC1, issueC2, issueC3] = [issueC1] := rfl

example : ready_work [issueA, issueB] = [issueB] := rfl

example : get_next_id_iter IssueStore.initMeta 3 = [1, 2, 3] := rfl

example : IssueStore.load_all [Line.blank, Line.badJson "bad"] =
    .error ⟨corruptedMsg 2 "bad"⟩ := rfl

example : IssueStore.load_all [Line.json ⟨none, none, none, none, none, none, none⟩] =
    .error ⟨invalidMsg 1 "KeyError: id"⟩ := rfl

example : Issue.validate_blocked_by issueB {1} = .ok () := rfl

example : Issue.validate_blocked_by
    ⟨1, "x", none, Status.OPEN, sampleTime, sampleTime, [1]⟩ {1} =
    .error "Issue 1 cannot block itself." := rfl
